import Mathlib

/-!
Verification of the S3-to-Qdrant ingestion pipeline (`src/s3_to_qdrant.py`).

The Python source is shallowly embedded: pure helpers become Lean functions,
the effectful pipeline becomes explicit state passing over a model of the
local filesystem and of the Qdrant vector index, and every fallible external
call is driven by an `Env` record describing the outcome of that call.
Machine-level details (MD5, UTF-8) are implemented bit-for-bit over `Nat`.
-/

deriving instance DecidableEq for Except

/-! ## MD5 (`hashlib.md5(...).hexdigest()` from `md5_id`, line 55-56) -/

/-- The 64 per-round MD5 constants (`K[i] = floor(2^32 * abs(sin(i+1)))`). -/
def md5K : List Nat :=
  [0xd76aa478, 0xe8c7b756, 0x242070db, 0xc1bdceee,
   0xf57c0faf, 0x4787c62a, 0xa8304613, 0xfd469501,
   0x698098d8, 0x8b44f7af, 0xffff5bb1, 0x895cd7be,
   0x6b901122, 0xfd987193, 0xa679438e, 0x49b40821,
   0xf61e2562, 0xc040b340, 0x265e5a51, 0xe9b6c7aa,
   0xd62f105d, 0x02441453, 0xd8a1e681, 0xe7d3fbc8,
   0x21e1cde6, 0xc33707d6, 0xf4d50d87, 0x455a14ed,
   0xa9e3e905, 0xfcefa3f8, 0x676f02d9, 0x8d2a4c8a,
   0xfffa3942, 0x8771f681, 0x6d9d6122, 0xfde5380c,
   0xa4beea44, 0x4bdecfa9, 0xf6bb4b60, 0xbebfbc70,
   0x289b7ec6, 0xeaa127fa, 0xd4ef3085, 0x04881d05,
   0xd9d4d039, 0xe6db99e5, 0x1fa27cf8, 0xc4ac5665,
   0xf4292244, 0x432aff97, 0xab9423a7, 0xfc93a039,
   0x655b59c3, 0x8f0ccc92, 0xffeff47d, 0x85845dd1,
   0x6fa87e4f, 0xfe2ce6e0, 0xa3014314, 0x4e0811a1,
   0xf7537e82, 0xbd3af235, 0x2ad7d2bb, 0xeb86d391]

/-- The 64 per-round MD5 left-rotation amounts. -/
def md5S : List Nat :=
  [7, 12, 17, 22, 7, 12, 17, 22, 7, 12, 17, 22, 7, 12, 17, 22,
   5, 9, 14, 20, 5, 9, 14, 20, 5, 9, 14, 20, 5, 9, 14, 20,
   4, 11, 16, 23, 4, 11, 16, 23, 4, 11, 16, 23, 4, 11, 16, 23,
   6, 10, 15, 21, 6, 10, 15, 21, 6, 10, 15, 21, 6, 10, 15, 21]

/-- Rotate a 32-bit word left by `n` bits. -/
def rotl32 (x n : Nat) : Nat :=
  ((x <<< n) ||| (x >>> (32 - n))) % 4294967296

/-- The MD5 round mixing function for round `i` on words `b c d`. -/
def md5F (i b c d : Nat) : Nat :=
  if i < 16 then (b &&& c) ||| ((b ^^^ 0xffffffff) &&& d)
  else if i < 32 then (d &&& b) ||| ((d ^^^ 0xffffffff) &&& c)
  else if i < 48 then b ^^^ c ^^^ d
  else c ^^^ (b ||| (d ^^^ 0xffffffff))

/-- The MD5 message-word index for round `i`. -/
def md5G (i : Nat) : Nat :=
  if i < 16 then i
  else if i < 32 then (5 * i + 1) % 16
  else if i < 48 then (3 * i + 5) % 16
  else (7 * i) % 16

/-- One MD5 round: state `(a, b, c, d)` and round index `i` over message words `M`. -/
def md5Step (M : List Nat) (st : Nat × Nat × Nat × Nat) (i : Nat) : Nat × Nat × Nat × Nat :=
  let a := st.1
  let b := st.2.1
  let c := st.2.2.1
  let d := st.2.2.2
  let f := (md5F i b c d + a + md5K.getD i 0 + M.getD (md5G i) 0) % 4294967296
  (d, (b + rotl32 f (md5S.getD i 0)) % 4294967296, b, c)

/-- Read four little-endian bytes as a 32-bit word. -/
def fromLE4 (bs : List Nat) : Nat :=
  bs.getD 0 0 + bs.getD 1 0 * 256 + bs.getD 2 0 * 65536 + bs.getD 3 0 * 16777216

/-- Emit a 32-bit word as four little-endian bytes. -/
def toLE4 (x : Nat) : List Nat :=
  [x % 256, x / 256 % 256, x / 65536 % 256, x / 16777216 % 256]

/-- Process one 64-byte block, adding the round result to the running state. -/
def md5Block (st : Nat × Nat × Nat × Nat) (block : List Nat) : Nat × Nat × Nat × Nat :=
  let M := (List.range 16).map (fun j => fromLE4 ((block.drop (4 * j)).take 4))
  let r := (List.range 64).foldl (md5Step M) st
  ((st.1 + r.1) % 4294967296, (st.2.1 + r.2.1) % 4294967296,
   (st.2.2.1 + r.2.2.1) % 4294967296, (st.2.2.2 + r.2.2.2) % 4294967296)

/-- MD5 padding: a `0x80` byte, zeros to 56 mod 64, then the bit length as
eight little-endian bytes. -/
def md5Pad (msg : List Nat) : List Nat :=
  let len := msg.length
  msg ++ [0x80] ++ List.replicate ((120 - ((len + 1) % 64)) % 64) 0
      ++ (List.range 8).map (fun i => ((len * 8) >>> (8 * i)) % 256)

/-- Split a (padded) byte list into its 64-byte blocks. -/
def blocks64 (l : List Nat) : List (List Nat) :=
  (List.range (l.length / 64)).map (fun i => ((l.drop (64 * i)).take 64))

/-- The 16-byte MD5 digest of a byte string. -/
def md5Bytes (msg : List Nat) : List Nat :=
  let final := (blocks64 (md5Pad msg)).foldl md5Block
      (0x67452301, 0xefcdab89, 0x98badcfe, 0x10325476)
  toLE4 final.1 ++ toLE4 final.2.1 ++ toLE4 final.2.2.1 ++ toLE4 final.2.2.2

/-- Lowercase hex digit for a value below 16. -/
def hexDigit (n : Nat) : Char :=
  "0123456789abcdef".data.getD n '0'

/-- Two lowercase hex digits for one byte. -/
def hexByte (b : Nat) : List Char :=
  [hexDigit (b / 16), hexDigit (b % 16)]

/-- UTF-8 encoding of one Unicode scalar value (`str.encode("utf-8")`). -/
def utf8Char (c : Char) : List Nat :=
  let n := c.toNat
  if n < 0x80 then [n]
  else if n < 0x800 then
    [0xc0 ||| (n >>> 6), 0x80 ||| (n &&& 0x3f)]
  else if n < 0x10000 then
    [0xe0 ||| (n >>> 12), 0x80 ||| ((n >>> 6) &&& 0x3f), 0x80 ||| (n &&& 0x3f)]
  else
    [0xf0 ||| (n >>> 18), 0x80 ||| ((n >>> 12) &&& 0x3f),
     0x80 ||| ((n >>> 6) &&& 0x3f), 0x80 ||| (n &&& 0x3f)]

/-- UTF-8 encoding of a string. -/
def utf8Bytes (s : String) : List Nat :=
  (s.data.map utf8Char).flatten

/-- Source `md5_id` (line 55-56): `hashlib.md5(s.encode("utf-8")).hexdigest()`. -/
def md5_id (s : String) : String :=
  String.mk ((md5Bytes (utf8Bytes s)).map hexByte).flatten

/-! ## Path helpers (`os.path`, `pathlib`)

These are implemented by structural recursion over the character list so that
concrete instances reduce inside the kernel. -/

/-- Split a character list on a separator character. -/
def splitOnChar (sep : Char) : List Char → List (List Char)
  | [] => [[]]
  | c :: rest =>
    match splitOnChar sep rest with
    | [] => [[]]
    | g :: gs => if c = sep then [] :: g :: gs else (c :: g) :: gs

/-- Whether the first character is a slash (`startswith("/")`). -/
def headIsSlash (s : String) : Bool :=
  match s.data with
  | [] => false
  | c :: _ => c == '/'

/-- Whether the last character is a slash (`endswith("/")`). -/
def lastIsSlash (s : String) : Bool :=
  match s.data.getLast? with
  | none => false
  | some c => c == '/'

/-- Model of `os.path.basename`: the part after the last slash. -/
def basename (p : String) : String :=
  String.mk ((splitOnChar '/' p.data).getLastD [])

/-- Model of `os.path.join` for one component: the right part if absolute,
otherwise joined with a slash unless one is already present. -/
def osPathJoin (d b : String) : String :=
  if headIsSlash b then b
  else if d = "" then b
  else if lastIsSlash d then d ++ b
  else d ++ "/" ++ b

/-- ASCII lowercase of one character (`str.lower()`; the extensions the
script dispatches on are ASCII). -/
def charLower (c : Char) : Char :=
  if 'A' ≤ c ∧ c ≤ 'Z' then Char.ofNat (c.toNat + 32) else c

/-- ASCII lowercase of a string. -/
def lowerAscii (s : String) : String :=
  String.mk (s.data.map charLower)

/-- Index of the last occurrence of a character, if any. -/
def rlastIdxOf (c : Char) (l : List Char) : Option Nat :=
  match l.reverse.findIdx? (fun x => x = c) with
  | none => none
  | some j => some (l.length - 1 - j)

/-- Model of `pathlib.Path(path).suffix`: the final dot-suffix of the last
component, empty when the dot is missing, leading, or trailing. -/
def pathSuffix (path : String) : String :=
  let name := basename path
  match rlastIdxOf '.' name.data with
  | none => ""
  | some i =>
      if 0 < i ∧ i < name.data.length - 1 then String.mk (name.data.drop i) else ""

/-! ## Local filesystem model -/

/-- Content of a staged local file: decodable UTF-8 text, or bytes that the
UTF-8 text loader rejects. -/
inductive FileData where
  | text (s : String)
  | binary
deriving DecidableEq, Repr

/-- The local filesystem: an association of paths to file contents. -/
abbrev FS := List (String × FileData)

/-- Look up the content at a path. -/
def fsRead (fs : FS) (p : String) : Option FileData :=
  List.lookup p fs

/-- Write (or overwrite) the content at a path. -/
def fsWrite (fs : FS) (p : String) (d : FileData) : FS :=
  (p, d) :: List.filter (fun e => !(e.1 == p)) fs

/-- Delete the file at a path (`os.remove`). -/
def fsRemove (fs : FS) (p : String) : FS :=
  List.filter (fun e => !(e.1 == p)) fs

/-! ## Documents, loaders and splitting -/

/-- A LangChain document as used by the script: its text payload. -/
structure Document where
  page_content : String
deriving DecidableEq, Repr

/-- A document loader the module can actually construct.  The source imports
`TextLoader` (and `PyPDFLoader`, `UnstructuredMarkdownLoader`, which are never
used); the names `UnstructuredPDFLoader` and `UnstructuredWordDocumentLoader`
referenced at lines 100 and 102 are not imported, so evaluating those branches
raises `NameError`. -/
inductive Loader where
  | textLoader (path : String) (encoding : String)
deriving DecidableEq, Repr

/-- Source `choose_loader_for_path` (lines 97-104).  Selecting the loader for
`.pdf` or `.docx`/`.doc` evaluates an undefined global and raises `NameError`
(the dedicated loaders are not among the module imports at lines 45-51). -/
def choose_loader_for_path (path : String) : Except String Loader :=
  let suffix := lowerAscii (pathSuffix path)
  if suffix = ".pdf" then
    .error "NameError: name UnstructuredPDFLoader is not defined"
  else if suffix = ".docx" ∨ suffix = ".doc" then
    .error "NameError: name UnstructuredWordDocumentLoader is not defined"
  else
    .ok (.textLoader path "utf-8")

/-- Behaviour of `loader.load()`: the text loader reads the file at its path
and yields one document, failing on a missing file or undecodable bytes. -/
def loaderLoad (fs : FS) : Loader → Except String (List Document)
  | .textLoader path _enc =>
    match fsRead fs path with
    | none => .error ("FileNotFoundError: " ++ path)
    | some (.text s) => .ok [{ page_content := s }]
    | some .binary => .error ("UnicodeDecodeError: " ++ path)

/-- Number of chunk windows over a text of length `len`. -/
def numChunks (len size overlap : Nat) : Nat :=
  if len = 0 then 0
  else if len ≤ size then 1
  else (len - size + (size - overlap) - 1) / (size - overlap) + 1

/-- Modelled from the spec: `RecursiveCharacterTextSplitter.split_text` lives
in the external `langchain_text_splitters` package, not in this repository.
Per section 4.3 of the design, splitting is a greedy forward scan producing
windows of at most `chunk_size` characters in which every window after the
first overlaps the previous one by `chunk_overlap` characters, i.e. window `i`
starts `chunk_size - chunk_overlap` characters after window `i - 1`.  The
model assumes `chunk_overlap < chunk_size`, which the library asserts. -/
def splitText (chunk_size chunk_overlap : Nat) (text : String) : List String :=
  let cs := text.data
  (List.range (numChunks cs.length chunk_size chunk_overlap)).map
    (fun i => String.mk ((cs.drop (i * (chunk_size - chunk_overlap))).take chunk_size))

/-- `splitter.split_documents(docs)`: split each document and keep order. -/
def split_documents (chunk_size chunk_overlap : Nat) (docs : List Document) : List Document :=
  (docs.map (fun d =>
    (splitText chunk_size chunk_overlap d.page_content).map
      (fun t => ({ page_content := t } : Document)))).flatten

/-- Source `load_and_split` (lines 107-111); the orchestrator calls it with
the default `chunk_size = 800`, `chunk_overlap = 100`. -/
def load_and_split (fs : FS) (path : String) (chunk_size chunk_overlap : Nat) :
    Except String (List Document) :=
  match choose_loader_for_path path with
  | .error e => .error e
  | .ok loader =>
    match loaderLoad fs loader with
    | .error e => .error e
    | .ok docs => .ok (split_documents chunk_size chunk_overlap docs)

/-! ## Qdrant vector index model -/

/-- Metadata stored with every chunk (the `meta` dict built at lines 142-149). -/
structure ChunkMeta where
  filename : Option String
  s3_last_modified : Option String
  s3_size : Option Nat
  s3_key : String
  chunk_index : Nat
deriving DecidableEq, Repr

/-- One stored point: the chunk text (standing in for its embedding vector,
which the external embedding provider derives from it) plus its payload. -/
structure PointPayload where
  text : String
  meta : ChunkMeta
deriving DecidableEq, Repr

/-- Distance metric of a collection. -/
inductive Distance where
  | cosine
deriving DecidableEq, Repr

/-- One Qdrant collection: vector configuration plus stored points keyed by id. -/
structure CollectionData where
  vector_size : Nat
  distance : Distance
  points : List (String × PointPayload)
deriving DecidableEq, Repr

/-- The Qdrant server state: named collections. -/
structure QdrantState where
  collections : List (String × CollectionData)
deriving DecidableEq, Repr

/-- Upsert one point: overwrite in place when the id is present, append
otherwise (Qdrant point upsert keyed by id). -/
def upsertPoint (pts : List (String × PointPayload)) (id : String) (p : PointPayload) :
    List (String × PointPayload) :=
  if pts.any (fun e => e.1 == id) then
    pts.map (fun e => if e.1 == id then (id, p) else e)
  else
    pts ++ [(id, p)]

/-- Replace the points of the named collection (first match), leaving the
state unchanged when the collection is absent. -/
def setPoints : List (String × CollectionData) → String → List (String × PointPayload) →
    List (String × CollectionData)
  | [], _, _ => []
  | c :: rest, coll, pts =>
      if c.1 == coll then (c.1, { c.2 with points := pts }) :: rest
      else c :: setPoints rest coll pts

/-- Points of the named collection (empty when absent). -/
def getPoints (q : QdrantState) (coll : String) : List (String × PointPayload) :=
  match List.lookup coll q.collections with
  | none => []
  | some cd => cd.points

/-- Upsert a batch of entries in order. -/
def upsertAll (pts entries : List (String × PointPayload)) : List (String × PointPayload) :=
  entries.foldl (fun acc e => upsertPoint acc e.1 e.2) pts

/-- `vectorstore.add_texts(texts, metadatas, ids)`: upsert each entry in order
into the named collection.  Ingestion only calls this after the bootstrap has
ensured the collection exists. -/
def add_texts (q : QdrantState) (coll : String) (entries : List (String × PointPayload)) :
    QdrantState :=
  { collections := setPoints q.collections coll (upsertAll (getPoints q coll) entries) }

/-- Total number of entries in a collection. -/
def entryCount (q : QdrantState) (coll : String) : Nat :=
  (getPoints q coll).length

/-- Number of entries in a collection whose payload carries the given source key. -/
def countForKey (q : QdrantState) (coll key : String) : Nat :=
  ((getPoints q coll).filter (fun e => e.2.meta.s3_key == key)).length

/-! ## External-world environment and event trace -/

/-- Metadata returned by `s3.head_object`. -/
structure HeadMeta where
  lastModified : Option String
  size : Option Nat
  etag : Option String
deriving DecidableEq, Repr

/-- Outcomes of the external calls the script makes.  Each field fixes what
the corresponding remote or OS call does during the run being modelled. -/
structure Env where
  listRaw : String → String → Except String (List String)
  fetch : String → Except String FileData
  head : String → Except String HeadMeta
  getCollectionsOk : Bool
  createOk : Bool
  upsertOk : String → Bool
  removeOk : String → Bool
  tmpDir : String

/-- Ghost trace of the externally visible calls, in program order. -/
inductive Event where
  | listObjects
  | getCollections
  | createCollection (name : String)
  | downloadFile (key : String)
  | headObject (key : String)
  | addTexts (key : String)
  | removeFile (path : String)
deriving DecidableEq, Repr

/-! ## Pipeline functions (one per Python function) -/

/-- Source `list_s3_objects` (lines 64-74): paginate the listing and drop
directory-marker keys (those ending in a slash).  A transport error from the
paginator propagates. -/
def list_s3_objects (env : Env) (bucket keyPfx : String) : Except String (List String) :=
  match env.listRaw bucket keyPfx with
  | .error e => .error e
  | .ok keys => .ok (keys.filter (fun k => !(lastIsSlash k)))

/-- Source `download_s3_object` (lines 77-93): write the object to
`dest_dir/basename(key)`, then fetch head metadata.  The write happens before
the metadata call, so a `head_object` failure leaves the staged file behind.
Returns the filesystem after the attempt, the events, and the call result. -/
def download_s3_object (env : Env) (bucket key dest_dir : String) (fs : FS) :
    FS × List Event × Except String (String × HeadMeta) :=
  let local_path := osPathJoin dest_dir (basename key)
  match env.fetch key with
  | .error e => (fs, [.downloadFile key], .error e)
  | .ok data =>
    let fs1 := fsWrite fs local_path data
    match env.head key with
    | .error e => (fs1, [.downloadFile key, .headObject key], .error e)
    | .ok h => (fs1, [.downloadFile key, .headObject key], .ok (local_path, h))

/-- Source `ensure_qdrant_collection` (lines 115-124): list collection names;
create the collection only when the name is absent. -/
def ensure_qdrant_collection (env : Env) (q : QdrantState) (collection_name : String)
    (vector_size : Nat) : QdrantState × List Event × Except String Unit :=
  if env.getCollectionsOk = false then
    (q, [.getCollections], .error "qdrant: get_collections failed")
  else if (q.collections.map Prod.fst).contains collection_name then
    (q, [.getCollections], .ok ())
  else if env.createOk then
    ({ collections :=
        q.collections ++ [(collection_name,
          { vector_size := vector_size, distance := .cosine, points := [] })] },
     [.getCollections, .createCollection collection_name], .ok ())
  else
    (q, [.getCollections, .createCollection collection_name],
     .error "qdrant: recreate_collection failed")

/-- Base metadata built by the orchestrator at lines 204-208. -/
structure MetadataBase where
  filename : Option String
  s3_last_modified : Option String
  s3_size : Option Nat
deriving DecidableEq, Repr

/-- The `(id, payload)` entries prepared by the loop at lines 138-152 of
`upsert_chunks_to_qdrant`: the id of the chunk at position `i` is
`md5_id (s3_key ++ "::" ++ i)` and the payload copies the base metadata and
records the key and chunk index. -/
def prepared_points (s3_key : String) (metadata_base : MetadataBase)
    (docs_chunks : List Document) : List (String × PointPayload) :=
  docs_chunks.enum.map (fun p =>
    (md5_id (s3_key ++ "::" ++ toString p.1),
     { text := p.2.page_content,
       meta := { filename := metadata_base.filename,
                 s3_last_modified := metadata_base.s3_last_modified,
                 s3_size := metadata_base.s3_size,
                 s3_key := s3_key,
                 chunk_index := p.1 } }))

/-- Source `upsert_chunks_to_qdrant` (lines 127-161): prepare ids, texts and
metadata; in dry-run mode return the count without contacting the index,
otherwise call `add_texts` (whose transport may fail) and return the count. -/
def upsert_chunks_to_qdrant (env : Env) (q : QdrantState) (coll : String)
    (docs_chunks : List Document) (s3_key : String) (metadata_base : MetadataBase)
    (dry_run : Bool) : QdrantState × List Event × Except String Nat :=
  let entries := prepared_points s3_key metadata_base docs_chunks
  if dry_run then
    (q, [], .ok entries.length)
  else if env.upsertOk s3_key then
    (add_texts q coll entries, [.addTexts s3_key], .ok entries.length)
  else
    (q, [.addTexts s3_key], .error "add_texts failed")

/-- Running state of the per-object loop. -/
structure LoopState where
  total : Nat
  fs : FS
  q : QdrantState
  events : List Event
deriving Repr

/-- One iteration of the per-object loop (lines 193-219): stage the object
(skipping it on a staging error, with no cleanup on that path), then decode,
split and upsert inside a `try` whose exceptions are swallowed, and finally
delete the staged file when `delete_local` is set, ignoring deletion errors. -/
def processOne (env : Env) (coll dest_dir : String) (delete_local dry_run : Bool)
    (st : LoopState) (bucket key : String) : LoopState :=
  match download_s3_object env bucket key dest_dir st.fs with
  | (fs1, ev1, .error _) =>
      { st with fs := fs1, events := st.events ++ ev1 }
  | (fs1, ev1, .ok (local_path, head_meta)) =>
    let step :=
      match load_and_split fs1 local_path 800 100 with
      | .error _ => (st.q, ([] : List Event), st.total)
      | .ok docs_chunks =>
        let metadata_base : MetadataBase :=
          { filename := some (basename local_path),
            s3_last_modified := head_meta.lastModified,
            s3_size := head_meta.size }
        match upsert_chunks_to_qdrant env st.q coll docs_chunks key metadata_base dry_run with
        | (q1, ev2, .ok count) => (q1, ev2, st.total + count)
        | (q1, ev2, .error _) => (q1, ev2, st.total)
    let cleaned :=
      if delete_local then
        (if env.removeOk local_path then fsRemove fs1 local_path else fs1,
         [Event.removeFile local_path])
      else (fs1, [])
    { total := step.2.2, fs := cleaned.1, q := step.1,
      events := st.events ++ ev1 ++ step.2.1 ++ cleaned.2 }

/-- Result of a whole ingestion run. -/
structure RunResult where
  events : List Event
  fs : FS
  q : QdrantState
  result : Except String Nat
deriving Repr

/-- Source `ingest_from_s3` (lines 165-222): enumerate first, return 0 on an
empty listing, then bootstrap the collection, then fold the per-object loop
over the listed keys and report the accumulated chunk total. -/
def ingest_from_s3 (env : Env) (bucket keyPfx collection_name : String)
    (local_tmp_dir : Option String) (delete_local dry_run : Bool)
    (fs0 : FS) (q0 : QdrantState) : RunResult :=
  let dir := local_tmp_dir.getD env.tmpDir
  match list_s3_objects env bucket keyPfx with
  | .error e => { events := [.listObjects], fs := fs0, q := q0, result := .error e }
  | .ok keys =>
    if keys = [] then
      { events := [.listObjects], fs := fs0, q := q0, result := .ok 0 }
    else
      match ensure_qdrant_collection env q0 collection_name 384 with
      | (q1, evB, .error e) =>
          { events := [.listObjects] ++ evB, fs := fs0, q := q1, result := .error e }
      | (q1, evB, .ok _) =>
        let final := keys.foldl (fun st k => processOne env collection_name dir
          delete_local dry_run st bucket k) { total := 0, fs := fs0, q := q1, events := [] }
        { events := [.listObjects] ++ evB ++ final.events, fs := final.fs,
          q := final.q, result := .ok final.total }

/-! ## Basic lemmas -/

theorem prepared_points_length (k : String) (mb : MetadataBase) (docs : List Document) :
    (prepared_points k mb docs).length = docs.length := by
  simp [prepared_points]

theorem prepared_points_key (k : String) (mb : MetadataBase) (docs : List Document) :
    ∀ e ∈ prepared_points k mb docs, e.2.meta.s3_key = k := by
  intro e he
  rcases List.mem_map.1 he with ⟨p, _, rfl⟩
  rfl

theorem fsRead_fsWrite_self (fs : FS) (p : String) (d : FileData) :
    fsRead (fsWrite fs p d) p = some d := by
  simp [fsRead, fsWrite, List.lookup]

theorem fsRead_fsRemove_self (fs : FS) (p : String) :
    fsRead (fsRemove fs p) p = none := by
  induction fs with
  | nil => rfl
  | cons e rest ih =>
    by_cases h : e.1 = p
    · simpa [fsRemove, fsRead, h] using ih
    · have hb : (e.1 == p) = false := beq_eq_false_iff_ne.2 h
      have hb2 : (p == e.1) = false := beq_eq_false_iff_ne.2 (Ne.symm h)
      simpa [fsRemove, fsRead, List.lookup, hb, hb2] using ih

theorem md5Bytes_length (m : List Nat) : (md5Bytes m).length = 16 := by
  simp [md5Bytes, toLE4]

theorem hexFlatten_length (l : List Nat) : ((l.map hexByte).flatten).length = 2 * l.length := by
  induction l with
  | nil => rfl
  | cons b rest ih =>
    simp only [List.map_cons, List.flatten_cons, List.length_append, ih, hexByte,
      List.length_cons, List.length_nil]
    omega

theorem md5_id_length (s : String) : (md5_id s).length = 32 := by
  have h := hexFlatten_length (md5Bytes (utf8Bytes s))
  rw [md5Bytes_length] at h
  simpa [md5_id, String.length] using h

/-! ## Claim theorems -/

/-- C2. Chunk-identifier determinism: the identifier of the chunk at zero-based
index `i` prepared by the Upsert Writer for source key `s3_key` is the
fixed-length (32 hex characters) MD5 hash of `s3_key ++ "::" ++ i`, a pure
function of the pair `(s3_key, i)`: the right-hand side mentions neither the
chunk texts, nor the metadata, nor any ambient state. -/
theorem chunk_identifier_pure_function (s3_key : String) (mb : MetadataBase)
    (docs_chunks : List Document) (i : Nat) (h : i < docs_chunks.length) :
    ((prepared_points s3_key mb docs_chunks).map Prod.fst)[i]?
        = some (md5_id (s3_key ++ "::" ++ toString i))
    ∧ (md5_id (s3_key ++ "::" ++ toString i)).length = 32 := by
  refine ⟨?_, md5_id_length _⟩
  simp [prepared_points, List.map_map, List.getElem?_map, List.getElem?_enum,
    List.getElem?_eq_getElem h]

/-- Closed witness for C2 at a concrete key, chunk list and index. -/
theorem chunk_identifier_pure_function_witness :
    ((prepared_points "rcas/incident-42.log"
        { filename := none, s3_last_modified := none, s3_size := none }
        [{ page_content := "alpha" }, { page_content := "beta" }]).map Prod.fst)[1]?
        = some (md5_id ("rcas/incident-42.log" ++ "::" ++ toString 1))
    ∧ (md5_id ("rcas/incident-42.log" ++ "::" ++ toString 1)).length = 32 :=
  chunk_identifier_pure_function "rcas/incident-42.log"
    { filename := none, s3_last_modified := none, s3_size := none }
    [{ page_content := "alpha" }, { page_content := "beta" }] 1 (by decide)

/-- C4. Concrete chunking scenario: a staged text object for key
`rcas/incident-42.log` whose decoded text has exactly 1000 characters, split
with chunk size 800 and overlap 100, yields exactly two chunks — chunk 0 is
characters [0,800) and chunk 1 is characters [700,1000) — and the identifiers
prepared for them are `md5_id "rcas/incident-42.log::0"` and
`md5_id "rcas/incident-42.log::1"`. -/
theorem concrete_chunking_scenario (t : String) (h : t.length = 1000) (mb : MetadataBase) :
    load_and_split
        [(osPathJoin "/tmp/s3_ingest" (basename "rcas/incident-42.log"), FileData.text t)]
        (osPathJoin "/tmp/s3_ingest" (basename "rcas/incident-42.log")) 800 100
      = .ok [{ page_content := String.mk (t.data.take 800) },
             { page_content := String.mk (t.data.drop 700) }]
    ∧ (prepared_points "rcas/incident-42.log" mb
        [{ page_content := String.mk (t.data.take 800) },
         { page_content := String.mk (t.data.drop 700) }]).map Prod.fst
      = [md5_id "rcas/incident-42.log::0", md5_id "rcas/incident-42.log::1"] := by
  have hd : t.data.length = 1000 := h
  have hchoose : choose_loader_for_path
      (osPathJoin "/tmp/s3_ingest" (basename "rcas/incident-42.log"))
      = .ok (.textLoader (osPathJoin "/tmp/s3_ingest" (basename "rcas/incident-42.log"))
          "utf-8") := by
    rfl
  have hload : loaderLoad
      [(osPathJoin "/tmp/s3_ingest" (basename "rcas/incident-42.log"), FileData.text t)]
      (.textLoader (osPathJoin "/tmp/s3_ingest" (basename "rcas/incident-42.log")) "utf-8")
      = .ok [{ page_content := t }] := by
    simp [loaderLoad, fsRead, List.lookup]
  constructor
  · simp only [load_and_split, hchoose, hload]
    have hn : numChunks t.length 800 100 = 2 := by rw [h]; rfl
    have hn2 : numChunks t.data.length 800 100 = 2 := by rw [hd]; rfl
    have htake : (t.data.drop 700).take 800 = t.data.drop 700 :=
      List.take_of_length_le (by simp [hd])
    simp [split_documents, splitText, hn, hn2, List.range_succ, htake]
  · have e0 : md5_id ("rcas/incident-42.log" ++ "::" ++ toString 0)
        = md5_id "rcas/incident-42.log::0" := congrArg md5_id (by decide)
    have e1 : md5_id ("rcas/incident-42.log" ++ "::" ++ toString 1)
        = md5_id "rcas/incident-42.log::1" := congrArg md5_id (by decide)
    calc (prepared_points "rcas/incident-42.log" mb
          [{ page_content := String.mk (t.data.take 800) },
           { page_content := String.mk (t.data.drop 700) }]).map Prod.fst
        = [md5_id ("rcas/incident-42.log" ++ "::" ++ toString 0),
           md5_id ("rcas/incident-42.log" ++ "::" ++ toString 1)] := rfl
      _ = [md5_id "rcas/incident-42.log::0", md5_id "rcas/incident-42.log::1"] := by
          rw [e0, e1]

/-- Closed witness for C4 on the 1000-character text of all `a`. -/
theorem concrete_chunking_scenario_witness :
    load_and_split
        [(osPathJoin "/tmp/s3_ingest" (basename "rcas/incident-42.log"),
          FileData.text (String.mk (List.replicate 1000 'a')))]
        (osPathJoin "/tmp/s3_ingest" (basename "rcas/incident-42.log")) 800 100
      = .ok [{ page_content := String.mk ((String.mk (List.replicate 1000 'a')).data.take 800) },
             { page_content := String.mk ((String.mk (List.replicate 1000 'a')).data.drop 700) }]
    ∧ (prepared_points "rcas/incident-42.log"
        { filename := none, s3_last_modified := none, s3_size := none }
        [{ page_content := String.mk ((String.mk (List.replicate 1000 'a')).data.take 800) },
         { page_content := String.mk ((String.mk (List.replicate 1000 'a')).data.drop 700) }]).map
        Prod.fst
      = [md5_id "rcas/incident-42.log::0", md5_id "rcas/incident-42.log::1"] :=
  concrete_chunking_scenario (String.mk (List.replicate 1000 'a'))
    (by rw [String.length_mk, List.length_replicate])
    { filename := none, s3_last_modified := none, s3_size := none }

/-! ## Shared concrete fixtures for witnesses -/

/-- A concrete metadata base used by witnesses. -/
def mbW : MetadataBase := { filename := none, s3_last_modified := none, s3_size := none }

/-- A concrete two-chunk batch used by witnesses. -/
def docsW : List Document := [{ page_content := "alpha" }, { page_content := "beta" }]

/-- A concrete index state with an existing empty collection. -/
def qW : QdrantState :=
  { collections := [("incidents", { vector_size := 384, distance := .cosine, points := [] })] }

/-- A concrete environment in which every external call succeeds. -/
def envW : Env :=
  { listRaw := fun _ _ => .ok ["rcas/", "rcas/a.log"]
    fetch := fun _ => .ok (.text "hello")
    head := fun _ =>
      .ok { lastModified := some "2024-01-01T00:00:00", size := some 5, etag := some "etag-1" }
    getCollectionsOk := true
    createOk := true
    upsertOk := fun _ => true
    removeOk := fun _ => true
    tmpDir := "/tmp/s3_ingest_w" }

/-- C5. Dry-run non-mutation: in dry-run mode the Upsert Writer returns the
chunk count with the index state unchanged and no index call in the trace, and
when the non-dry-run transport succeeds, the non-dry-run invocation reports
the same count for the same input. -/
theorem dry_run_non_mutation (env : Env) (q : QdrantState) (coll : String)
    (docs_chunks : List Document) (s3_key : String) (mb : MetadataBase) :
    upsert_chunks_to_qdrant env q coll docs_chunks s3_key mb true
        = (q, [], .ok docs_chunks.length)
    ∧ (env.upsertOk s3_key = true →
        (upsert_chunks_to_qdrant env q coll docs_chunks s3_key mb false).2.2
          = .ok docs_chunks.length) := by
  refine ⟨?_, fun hup => ?_⟩
  · simp [upsert_chunks_to_qdrant, prepared_points_length]
  · simp [upsert_chunks_to_qdrant, hup, prepared_points_length]

/-- Closed witness for C5 on a concrete two-chunk batch. -/
theorem dry_run_non_mutation_witness :
    upsert_chunks_to_qdrant envW qW "incidents" docsW "rcas/a.log" mbW true
      = (qW, [], .ok 2)
    ∧ (upsert_chunks_to_qdrant envW qW "incidents" docsW "rcas/a.log" mbW false).2.2
      = .ok 2 := by
  have h := dry_run_non_mutation envW qW "incidents" docsW "rcas/a.log" mbW
  exact ⟨h.1, h.2 rfl⟩

/-- A concrete environment for the C9 witness: every fetched object succeeds
with content depending on the key. -/
def envW9 : Env :=
  { listRaw := fun _ _ => .ok []
    fetch := fun k => if k = "rcas/x.log" then .ok (.text "one") else .ok (.text "two")
    head := fun _ => .ok { lastModified := none, size := some 3, etag := none }
    getCollectionsOk := true
    createOk := true
    upsertOk := fun _ => true
    removeOk := fun _ => true
    tmpDir := "/tmp/s3_ingest_w" }

/-- A concrete environment for the C10 witness: the listing holds only a
directory-marker key. -/
def envW10 : Env :=
  { listRaw := fun _ _ => .ok ["rcas/"]
    fetch := fun _ => .error "unused"
    head := fun _ => .error "unused"
    getCollectionsOk := true
    createOk := true
    upsertOk := fun _ => true
    removeOk := fun _ => true
    tmpDir := "/tmp/s3_ingest_w" }

/-- C8. Decoder selection: the extension dispatch itself follows the claim,
but the branches for `.pdf` and `.docx`/`.doc` reference the loader classes
`UnstructuredPDFLoader` and `UnstructuredWordDocumentLoader`, which the module
never imports (lines 45-51 import `PyPDFLoader` instead), so selecting a
decoder for those extensions raises `NameError` rather than producing a
working dedicated decoder; only the generic UTF-8 text fallback works. -/
theorem pdf_loader_name_error :
    choose_loader_for_path "/tmp/s3_ingest/report.pdf"
      = .error "NameError: name UnstructuredPDFLoader is not defined"
    ∧ choose_loader_for_path "/tmp/s3_ingest/report.DOCX"
      = .error "NameError: name UnstructuredWordDocumentLoader is not defined"
    ∧ choose_loader_for_path "/tmp/s3_ingest/incident-42.log"
      = .ok (.textLoader "/tmp/s3_ingest/incident-42.log" "utf-8")
    ∧ load_and_split [("/tmp/s3_ingest/report.pdf", FileData.text "pdf bytes")]
        "/tmp/s3_ingest/report.pdf" 800 100
      = .error "NameError: name UnstructuredPDFLoader is not defined" := by
  exact ⟨rfl, rfl, rfl, rfl⟩

/-- C9. The Local Stager writes to `dest_dir/basename(key)`: the staged path
depends only on the key basename, so two distinct keys with equal basenames
stage to one shared path and the later download overwrites the earlier file. -/
theorem staged_path_uses_basename (env : Env) (bucket k1 k2 dest_dir : String) (fs : FS)
    (d1 d2 : FileData) (m1 : HeadMeta)
    (h1 : env.fetch k1 = .ok d1) (h2 : env.fetch k2 = .ok d2) (hm : env.head k1 = .ok m1)
    (hb : basename k1 = basename k2) :
    (download_s3_object env bucket k1 dest_dir fs).2.2
        = .ok (osPathJoin dest_dir (basename k1), m1)
    ∧ osPathJoin dest_dir (basename k1) = osPathJoin dest_dir (basename k2)
    ∧ fsRead (download_s3_object env bucket k2 dest_dir
          (download_s3_object env bucket k1 dest_dir fs).1).1
        (osPathJoin dest_dir (basename k1)) = some d2 := by
  refine ⟨?_, by rw [hb], ?_⟩
  · simp [download_s3_object, h1, hm]
  · cases hh : env.head k2 with
    | error e =>
        simp [download_s3_object, h1, h2, hm, hh, hb, fsRead_fsWrite_self]
    | ok m2 =>
        simp [download_s3_object, h1, h2, hm, hh, hb, fsRead_fsWrite_self]

/-- Closed witness for C9: keys `rcas/x.log` and `other/x.log` share the
staged path and the second download's content wins. -/
theorem staged_path_uses_basename_witness :
    (download_s3_object envW9 "bucket" "rcas/x.log" "/tmp/stage" []).2.2
        = .ok (osPathJoin "/tmp/stage" (basename "rcas/x.log"),
            { lastModified := none, size := some 3, etag := none })
    ∧ osPathJoin "/tmp/stage" (basename "rcas/x.log")
        = osPathJoin "/tmp/stage" (basename "other/x.log")
    ∧ fsRead (download_s3_object envW9 "bucket" "other/x.log" "/tmp/stage"
          (download_s3_object envW9 "bucket" "rcas/x.log" "/tmp/stage" []).1).1
        (osPathJoin "/tmp/stage" (basename "rcas/x.log"))
      = some (.text "two") :=
  staged_path_uses_basename envW9 "bucket" "rcas/x.log" "other/x.log" "/tmp/stage" []
    (.text "one") (.text "two") { lastModified := none, size := some 3, etag := none }
    rfl rfl rfl rfl

/-- C10. Empty-listing short-circuit: when the filtered enumeration is empty
the run returns total 0 at once with the index state untouched; its trace
holds only the listing call, so neither the collection-existence check nor
collection creation ever happens on such a run. -/
theorem empty_listing_short_circuit (env : Env) (bucket keyPfx coll : String)
    (dir : Option String) (delete_local dry_run : Bool) (fs0 : FS) (q0 : QdrantState)
    (raw : List String)
    (hl : env.listRaw bucket keyPfx = .ok raw)
    (he : raw.filter (fun k => !(lastIsSlash k)) = []) :
    ingest_from_s3 env bucket keyPfx coll dir delete_local dry_run fs0 q0
      = { events := [.listObjects], fs := fs0, q := q0, result := .ok 0 } := by
  simp [ingest_from_s3, list_s3_objects, hl, he]

/-- Closed witness for C10: a listing holding only a directory marker. -/
theorem empty_listing_short_circuit_witness :
    ingest_from_s3 envW10 "bucket" "rcas/" "incidents" (some "/tmp/stage") true false []
        { collections := [] }
      = { events := [.listObjects], fs := [], q := { collections := [] }, result := .ok 0 } :=
  empty_listing_short_circuit envW10 "bucket" "rcas/" "incidents" (some "/tmp/stage")
    true false [] { collections := [] } ["rcas/"] rfl rfl

/-! ## Upsert lemmas for idempotence (C1) -/

theorem any_fst_eq_iff (pts : List (String × PointPayload)) (id : String) :
    pts.any (fun e => e.1 == id) = true ↔ id ∈ pts.map Prod.fst := by
  rw [List.any_eq_true]
  constructor
  · rintro ⟨e, he, hbe⟩
    exact List.mem_map.2 ⟨e, he, beq_iff_eq.1 hbe⟩
  · intro h
    rcases List.mem_map.1 h with ⟨e, he, heq⟩
    exact ⟨e, he, beq_iff_eq.2 heq⟩

theorem upsertPoint_fst_of_mem (pts : List (String × PointPayload)) (id : String)
    (p : PointPayload) (h : id ∈ pts.map Prod.fst) :
    (upsertPoint pts id p).map Prod.fst = pts.map Prod.fst := by
  have ha : pts.any (fun e => e.1 == id) = true := (any_fst_eq_iff _ _).2 h
  rw [upsertPoint, if_pos ha, List.map_map]
  refine List.map_congr_left (fun e _ => ?_)
  by_cases hbe : e.1 = id
  · simp [hbe]
  · simp [hbe]

theorem mem_fst_upsertPoint (pts : List (String × PointPayload)) (id : String)
    (p : PointPayload) : id ∈ (upsertPoint pts id p).map Prod.fst := by
  by_cases ha : pts.any (fun e => e.1 == id) = true
  · rw [upsertPoint_fst_of_mem _ _ _ ((any_fst_eq_iff _ _).1 ha)]
    exact (any_fst_eq_iff _ _).1 ha
  · rw [upsertPoint, if_neg ha]
    simp

theorem mem_fst_upsertPoint_mono (pts : List (String × PointPayload)) (id : String)
    (p : PointPayload) (x : String) (h : x ∈ pts.map Prod.fst) :
    x ∈ (upsertPoint pts id p).map Prod.fst := by
  by_cases ha : pts.any (fun e => e.1 == id) = true
  · rwa [upsertPoint_fst_of_mem _ _ _ ((any_fst_eq_iff _ _).1 ha)]
  · rw [upsertPoint, if_neg ha]
    simp only [List.map_append, List.mem_append]
    exact Or.inl h

theorem mem_fst_upsertAll_mono (entries pts : List (String × PointPayload)) (x : String)
    (h : x ∈ pts.map Prod.fst) : x ∈ (upsertAll pts entries).map Prod.fst := by
  induction entries generalizing pts with
  | nil => exact h
  | cons e0 es ih => exact ih _ (mem_fst_upsertPoint_mono _ _ _ _ h)

theorem mem_fst_upsertAll (entries pts : List (String × PointPayload)) :
    ∀ e ∈ entries, e.1 ∈ (upsertAll pts entries).map Prod.fst := by
  induction entries generalizing pts with
  | nil => intro e he; cases he
  | cons e0 es ih =>
    intro e he
    rcases List.mem_cons.1 he with h | h
    · subst h
      exact mem_fst_upsertAll_mono es _ _ (mem_fst_upsertPoint pts e.1 e.2)
    · exact ih _ e h

theorem upsertAll_fst_of_all_mem (entries pts : List (String × PointPayload))
    (h : ∀ e ∈ entries, e.1 ∈ pts.map Prod.fst) :
    (upsertAll pts entries).map Prod.fst = pts.map Prod.fst := by
  induction entries generalizing pts with
  | nil => rfl
  | cons e0 es ih =>
    have h0 := upsertPoint_fst_of_mem pts e0.1 e0.2 (h e0 (List.mem_cons_self _ _))
    have : upsertAll pts (e0 :: es) = upsertAll (upsertPoint pts e0.1 e0.2) es := rfl
    rw [this, ih _ (fun e he => h0 ▸ h e (List.mem_cons_of_mem _ he)), h0]

theorem mem_upsertPoint_cases (pts : List (String × PointPayload)) (id : String)
    (p : PointPayload) (x : String × PointPayload) (hx : x ∈ upsertPoint pts id p) :
    x = (id, p) ∨ x ∈ pts := by
  by_cases ha : pts.any (fun e => e.1 == id) = true
  · rw [upsertPoint, if_pos ha] at hx
    rcases List.mem_map.1 hx with ⟨e, he, heq⟩
    by_cases hbe : (e.1 == id) = true
    · left; rw [← heq, if_pos hbe]
    · right; rw [← heq, if_neg hbe]; exact he
  · rw [upsertPoint, if_neg ha] at hx
    rcases List.mem_append.1 hx with h | h
    · exact Or.inr h
    · exact Or.inl (List.mem_singleton.1 h)

theorem mem_upsertPoint_of_ne (pts : List (String × PointPayload)) (id : String)
    (p : PointPayload) (x : String × PointPayload) (hx : x ∈ upsertPoint pts id p)
    (hne : ¬ x.1 = id) : x ∈ pts := by
  rcases mem_upsertPoint_cases pts id p x hx with h | h
  · exact absurd (congrArg Prod.fst h) hne
  · exact h

theorem mem_upsertAll_of_not_mem_fst (entries pts : List (String × PointPayload))
    (x : String × PointPayload) (hx : x ∈ upsertAll pts entries)
    (hni : x.1 ∉ entries.map Prod.fst) : x ∈ pts := by
  induction entries generalizing pts with
  | nil => exact hx
  | cons e0 es ih =>
    simp only [List.map_cons, List.mem_cons, not_or] at hni
    exact mem_upsertPoint_of_ne pts e0.1 e0.2 x (ih _ hx hni.2) hni.1

theorem mem_upsertPoint_eq_of_fst_eq (pts : List (String × PointPayload)) (id : String)
    (p : PointPayload) (x : String × PointPayload) (hx : x ∈ upsertPoint pts id p)
    (hfst : x.1 = id) : x = (id, p) := by
  by_cases ha : pts.any (fun e => e.1 == id) = true
  · rw [upsertPoint, if_pos ha] at hx
    rcases List.mem_map.1 hx with ⟨e, _, heq⟩
    by_cases hbe : (e.1 == id) = true
    · rw [← heq, if_pos hbe]
    · exfalso
      rw [← heq, if_neg hbe] at hfst
      exact hbe (beq_iff_eq.2 hfst)
  · rw [upsertPoint, if_neg ha] at hx
    rcases List.mem_append.1 hx with h | h
    · exact absurd ((any_fst_eq_iff _ _).2 (hfst ▸ List.mem_map_of_mem Prod.fst h)) ha
    · exact List.mem_singleton.1 h

theorem upsertAll_key_invariant (key : String) (entries : List (String × PointPayload))
    (hkeys : ∀ e ∈ entries, e.2.meta.s3_key = key) :
    ∀ (pts : List (String × PointPayload)) (x : String × PointPayload),
      x ∈ upsertAll pts entries → x.1 ∈ entries.map Prod.fst → x.2.meta.s3_key = key := by
  induction entries with
  | nil => intro pts x _ hm; cases hm
  | cons e0 es ih =>
    intro pts x hx hm
    by_cases h : x.1 ∈ es.map Prod.fst
    · exact ih (fun e he => hkeys e (List.mem_cons_of_mem _ he)) _ x hx h
    · have hfst : x.1 = e0.1 := by
        rcases List.mem_cons.1 hm with h1 | h1
        · exact h1
        · exact absurd h1 h
      have hx1 : x ∈ upsertPoint pts e0.1 e0.2 :=
        mem_upsertAll_of_not_mem_fst es _ x hx h
      have hxe : x = (e0.1, e0.2) :=
        mem_upsertPoint_eq_of_fst_eq pts e0.1 e0.2 x hx1 hfst
      rw [hxe]
      exact hkeys e0 (List.mem_cons_self _ _)

theorem countP_key_upsertPoint (pts : List (String × PointPayload)) (id : String)
    (p : PointPayload) (key : String) (hmem : id ∈ pts.map Prod.fst)
    (hsame : ∀ x ∈ pts, x.1 = id → x.2.meta.s3_key = p.meta.s3_key) :
    ((upsertPoint pts id p).filter (fun e => e.2.meta.s3_key == key)).length
      = (pts.filter (fun e => e.2.meta.s3_key == key)).length := by
  have ha : pts.any (fun e => e.1 == id) = true := (any_fst_eq_iff _ _).2 hmem
  rw [upsertPoint, if_pos ha, ← List.countP_eq_length_filter, ← List.countP_eq_length_filter,
    List.countP_map]
  refine List.countP_congr (fun x hx => ?_)
  by_cases hbe : (x.1 == id) = true
  · have := hsame x hx (beq_iff_eq.1 hbe)
    simp [Function.comp, hbe, this]
  · simp [Function.comp, hbe]

theorem countP_key_upsertAll (key : String) (entries : List (String × PointPayload))
    (hkeys : ∀ e ∈ entries, e.2.meta.s3_key = key) :
    ∀ (pts : List (String × PointPayload)),
      (∀ e ∈ entries, e.1 ∈ pts.map Prod.fst) →
      (∀ x ∈ pts, x.1 ∈ entries.map Prod.fst → x.2.meta.s3_key = key) →
      ((upsertAll pts entries).filter (fun e => e.2.meta.s3_key == key)).length
        = (pts.filter (fun e => e.2.meta.s3_key == key)).length := by
  induction entries with
  | nil => intro pts _ _; rfl
  | cons e0 es ih =>
    intro pts hall hinv
    have h0 : e0.1 ∈ pts.map Prod.fst := hall e0 (List.mem_cons_self _ _)
    have hkey0 : e0.2.meta.s3_key = key := hkeys e0 (List.mem_cons_self _ _)
    have hstep : ((upsertPoint pts e0.1 e0.2).filter
          (fun e => e.2.meta.s3_key == key)).length
        = (pts.filter (fun e => e.2.meta.s3_key == key)).length := by
      refine countP_key_upsertPoint pts e0.1 e0.2 key h0 (fun x hx hfst => ?_)
      rw [hinv x hx (List.mem_cons.2 (Or.inl hfst)), hkey0]
    have hfst0 := upsertPoint_fst_of_mem pts e0.1 e0.2 h0
    have htail : upsertAll pts (e0 :: es) = upsertAll (upsertPoint pts e0.1 e0.2) es := rfl
    rw [htail, ih (fun e he => hkeys e (List.mem_cons_of_mem _ he))
      (upsertPoint pts e0.1 e0.2)
      (fun e he => hfst0 ▸ hall e (List.mem_cons_of_mem _ he))
      (fun x hx hm => ?_), hstep]
    rcases mem_upsertPoint_cases pts e0.1 e0.2 x hx with h | h
    · rw [h]; exact hkey0
    · exact hinv x h (List.mem_cons_of_mem _ hm)

/-! ## Collection lookup lemmas -/

theorem lookup_setPoints (coll : String) (pts : List (String × PointPayload)) :
    ∀ (l : List (String × CollectionData)),
      List.lookup coll (setPoints l coll pts)
        = (List.lookup coll l).map (fun cd => { cd with points := pts }) := by
  intro l
  induction l with
  | nil => rfl
  | cons c rest ih =>
    obtain ⟨k, cd⟩ := c
    by_cases h : k = coll
    · have hb : (k == coll) = true := beq_iff_eq.2 h
      have hb2 : (coll == k) = true := beq_iff_eq.2 h.symm
      simp [setPoints, List.lookup, hb, hb2]
    · have hb : (k == coll) = false := beq_eq_false_iff_ne.2 h
      have hb2 : (coll == k) = false := beq_eq_false_iff_ne.2 (Ne.symm h)
      simp [setPoints, List.lookup, hb, hb2, ih]

theorem getPoints_add_texts (q : QdrantState) (coll : String)
    (entries : List (String × PointPayload)) :
    getPoints (add_texts q coll entries) coll
      = match List.lookup coll q.collections with
        | none => []
        | some _ => upsertAll (getPoints q coll) entries := by
  show (match List.lookup coll (setPoints q.collections coll
      (upsertAll (getPoints q coll) entries)) with
    | none => []
    | some cd => cd.points) = _
  rw [lookup_setPoints]
  cases List.lookup coll q.collections <;> rfl

theorem lookup_add_texts (q : QdrantState) (coll : String)
    (entries : List (String × PointPayload)) :
    List.lookup coll (add_texts q coll entries).collections
      = (List.lookup coll q.collections).map
          (fun cd => { cd with points := upsertAll (getPoints q coll) entries }) := by
  show List.lookup coll (setPoints q.collections coll
      (upsertAll (getPoints q coll) entries)) = _
  rw [lookup_setPoints]
/-- C1. Idempotence of ingestion: re-upserting the same chunk batch for the
same source key with unchanged content and parameters computes the same
deterministic identifiers, so the second run leaves the stored identifier
list, the collection entry count, and the entry count attributed to the
source key exactly as the first run left them (every write lands on an
already-present identifier and overwrites in place). -/
theorem reingestion_idempotent (env : Env) (q : QdrantState) (coll s3_key : String)
    (docs_chunks : List Document) (mb : MetadataBase)
    (hup : env.upsertOk s3_key = true) :
    (upsert_chunks_to_qdrant env
        (upsert_chunks_to_qdrant env q coll docs_chunks s3_key mb false).1
        coll docs_chunks s3_key mb false).2.2
      = (upsert_chunks_to_qdrant env q coll docs_chunks s3_key mb false).2.2
    ∧ (getPoints (upsert_chunks_to_qdrant env
          (upsert_chunks_to_qdrant env q coll docs_chunks s3_key mb false).1
          coll docs_chunks s3_key mb false).1 coll).map Prod.fst
      = (getPoints (upsert_chunks_to_qdrant env q coll docs_chunks s3_key mb false).1
          coll).map Prod.fst
    ∧ entryCount (upsert_chunks_to_qdrant env
          (upsert_chunks_to_qdrant env q coll docs_chunks s3_key mb false).1
          coll docs_chunks s3_key mb false).1 coll
      = entryCount (upsert_chunks_to_qdrant env q coll docs_chunks s3_key mb false).1 coll
    ∧ countForKey (upsert_chunks_to_qdrant env
          (upsert_chunks_to_qdrant env q coll docs_chunks s3_key mb false).1
          coll docs_chunks s3_key mb false).1 coll s3_key
      = countForKey (upsert_chunks_to_qdrant env q coll docs_chunks s3_key mb false).1
          coll s3_key := by
  have hrun : ∀ q0 : QdrantState,
      upsert_chunks_to_qdrant env q0 coll docs_chunks s3_key mb false
        = (add_texts q0 coll (prepared_points s3_key mb docs_chunks), [.addTexts s3_key],
           .ok (prepared_points s3_key mb docs_chunks).length) := by
    intro q0
    simp [upsert_chunks_to_qdrant, hup]
  simp only [hrun]
  refine ⟨trivial, ?_⟩
  set entries := prepared_points s3_key mb docs_chunks with hentries
  cases hlk : List.lookup coll q.collections with
  | none =>
    have hp1 : getPoints (add_texts q coll entries) coll = [] := by
      rw [getPoints_add_texts, hlk]
    have hlk1 : List.lookup coll (add_texts q coll entries).collections = none := by
      rw [lookup_add_texts, hlk]; rfl
    have hp2 : getPoints (add_texts (add_texts q coll entries) coll entries) coll = [] := by
      rw [getPoints_add_texts, hlk1]
    refine ⟨?_, ?_, ?_⟩ <;> simp [entryCount, countForKey, hp1, hp2]
  | some cd =>
    have hp0 : getPoints q coll = cd.points := by
      show (match List.lookup coll q.collections with
        | none => [] | some cd => cd.points) = cd.points
      rw [hlk]
    have hp1 : getPoints (add_texts q coll entries) coll
        = upsertAll (getPoints q coll) entries := by
      rw [getPoints_add_texts, hlk]
    have hlk1 : List.lookup coll (add_texts q coll entries).collections
        = some { cd with points := upsertAll (getPoints q coll) entries } := by
      rw [lookup_add_texts, hlk]; rfl
    have hp2 : getPoints (add_texts (add_texts q coll entries) coll entries) coll
        = upsertAll (upsertAll (getPoints q coll) entries) entries := by
      rw [getPoints_add_texts, hlk1]
      show upsertAll (getPoints (add_texts q coll entries) coll) entries = _
      rw [hp1]
    have hall : ∀ e ∈ entries, e.1 ∈ (upsertAll (getPoints q coll) entries).map Prod.fst :=
      mem_fst_upsertAll entries (getPoints q coll)
    have hfst : (upsertAll (upsertAll (getPoints q coll) entries) entries).map Prod.fst
        = (upsertAll (getPoints q coll) entries).map Prod.fst :=
      upsertAll_fst_of_all_mem entries _ hall
    refine ⟨?_, ?_, ?_⟩
    · rw [hp1, hp2, hfst]
    · have := congrArg List.length hfst
      simpa [entryCount, hp1, hp2] using this
    · have hkeys : ∀ e ∈ entries, e.2.meta.s3_key = s3_key := prepared_points_key _ _ _
      have hinv := upsertAll_key_invariant s3_key entries hkeys (getPoints q coll)
      have := countP_key_upsertAll s3_key entries hkeys
        (upsertAll (getPoints q coll) entries) hall hinv
      simpa [countForKey, hp1, hp2] using this

/-- Closed witness for C1 on a concrete batch against the fixture index. -/
theorem reingestion_idempotent_witness :
    (upsert_chunks_to_qdrant envW
        (upsert_chunks_to_qdrant envW qW "incidents" docsW "rcas/a.log" mbW false).1
        "incidents" docsW "rcas/a.log" mbW false).2.2
      = (upsert_chunks_to_qdrant envW qW "incidents" docsW "rcas/a.log" mbW false).2.2
    ∧ (getPoints (upsert_chunks_to_qdrant envW
          (upsert_chunks_to_qdrant envW qW "incidents" docsW "rcas/a.log" mbW false).1
          "incidents" docsW "rcas/a.log" mbW false).1 "incidents").map Prod.fst
      = (getPoints (upsert_chunks_to_qdrant envW qW "incidents" docsW "rcas/a.log" mbW
          false).1 "incidents").map Prod.fst
    ∧ entryCount (upsert_chunks_to_qdrant envW
          (upsert_chunks_to_qdrant envW qW "incidents" docsW "rcas/a.log" mbW false).1
          "incidents" docsW "rcas/a.log" mbW false).1 "incidents"
      = entryCount (upsert_chunks_to_qdrant envW qW "incidents" docsW "rcas/a.log" mbW
          false).1 "incidents"
    ∧ countForKey (upsert_chunks_to_qdrant envW
          (upsert_chunks_to_qdrant envW qW "incidents" docsW "rcas/a.log" mbW false).1
          "incidents" docsW "rcas/a.log" mbW false).1 "incidents" "rcas/a.log"
      = countForKey (upsert_chunks_to_qdrant envW qW "incidents" docsW "rcas/a.log" mbW
          false).1 "incidents" "rcas/a.log" :=
  reingestion_idempotent envW qW "incidents" "rcas/a.log" docsW mbW rfl

/-! ## Per-object accounting (C3) -/

theorem choose_loader_ok (p : String) (l : Loader) (h : choose_loader_for_path p = .ok l) :
    l = .textLoader p "utf-8" := by
  unfold choose_loader_for_path at h
  dsimp only at h
  split_ifs at h
  injection h with h2
  exact h2.symm

theorem load_and_split_fsWrite (fs : FS) (p : String) (d : FileData) (n m : Nat) :
    load_and_split (fsWrite fs p d) p n m = load_and_split (fsWrite [] p d) p n m := by
  unfold load_and_split
  cases h : choose_loader_for_path p with
  | error e => rfl
  | ok l =>
    have hl := choose_loader_ok p l h
    subst hl
    simp [loaderLoad, fsRead_fsWrite_self]

/-- Chunk count contributed by one enumerated object: `some n` when staging,
decoding and (outside dry-run) the upsert transport all succeed for that key,
`none` when the object is skipped. -/
def objChunkCount (env : Env) (dest_dir : String) (dry_run : Bool) (key : String) :
    Option Nat :=
  match env.fetch key with
  | .error _ => none
  | .ok data =>
    match env.head key with
    | .error _ => none
    | .ok _ =>
      match load_and_split (fsWrite [] (osPathJoin dest_dir (basename key)) data)
          (osPathJoin dest_dir (basename key)) 800 100 with
      | .error _ => none
      | .ok docs_chunks =>
        if dry_run then some docs_chunks.length
        else if env.upsertOk key then some docs_chunks.length else none

theorem processOne_total (env : Env) (coll dest_dir : String)
    (delete_local dry_run : Bool) (st : LoopState) (bucket key : String) :
    (processOne env coll dest_dir delete_local dry_run st bucket key).total
      = st.total + (objChunkCount env dest_dir dry_run key).getD 0 := by
  cases hf : env.fetch key with
  | error e =>
    have hdl : download_s3_object env bucket key dest_dir st.fs
        = (st.fs, [.downloadFile key], .error e) := by
      simp [download_s3_object, hf]
    simp [processOne, hdl, objChunkCount, hf]
  | ok data =>
    cases hh : env.head key with
    | error e =>
      have hdl : download_s3_object env bucket key dest_dir st.fs
          = (fsWrite st.fs (osPathJoin dest_dir (basename key)) data,
             [.downloadFile key, .headObject key], .error e) := by
        simp [download_s3_object, hf, hh]
      simp [processOne, hdl, objChunkCount, hf, hh]
    | ok hm =>
      have hdl : download_s3_object env bucket key dest_dir st.fs
          = (fsWrite st.fs (osPathJoin dest_dir (basename key)) data,
             [.downloadFile key, .headObject key],
             .ok (osPathJoin dest_dir (basename key), hm)) := by
        simp [download_s3_object, hf, hh]
      simp only [processOne, hdl, load_and_split_fsWrite]
      cases hls : load_and_split
          (fsWrite [] (osPathJoin dest_dir (basename key)) data)
          (osPathJoin dest_dir (basename key)) 800 100 with
      | error e => simp [objChunkCount, hf, hh, hls]
      | ok docs_chunks =>
        cases dry_run with
        | true =>
          simp [objChunkCount, hf, hh, hls, upsert_chunks_to_qdrant, prepared_points_length]
        | false =>
          cases hu : env.upsertOk key with
          | true =>
            simp [objChunkCount, hf, hh, hls, upsert_chunks_to_qdrant, hu,
              prepared_points_length]
          | false =>
            simp [objChunkCount, hf, hh, hls, upsert_chunks_to_qdrant, hu]

theorem foldl_processOne_total (env : Env) (coll dest_dir : String)
    (delete_local dry_run : Bool) (bucket : String) :
    ∀ (keys : List String) (st : LoopState),
      (keys.foldl (fun st k => processOne env coll dest_dir delete_local dry_run st bucket k)
        st).total
      = st.total + (keys.map (fun k => (objChunkCount env dest_dir dry_run k).getD 0)).sum := by
  intro keys
  induction keys with
  | nil => intro st; simp
  | cons k ks ih =>
    intro st
    rw [List.foldl_cons, ih, processOne_total]
    simp [Nat.add_assoc]

theorem ensure_present (env : Env) (q : QdrantState) (coll : String) (vs : Nat)
    (hgc : env.getCollectionsOk = true)
    (hc : (q.collections.map Prod.fst).contains coll = true) :
    ensure_qdrant_collection env q coll vs = (q, [.getCollections], .ok ()) := by
  simp only [ensure_qdrant_collection, hgc, hc]
  rfl

theorem ensure_absent_create (env : Env) (q : QdrantState) (coll : String) (vs : Nat)
    (hgc : env.getCollectionsOk = true)
    (hc : (q.collections.map Prod.fst).contains coll = false)
    (hcr : env.createOk = true) :
    ensure_qdrant_collection env q coll vs
      = ({ collections := q.collections
            ++ [(coll, { vector_size := vs, distance := .cosine, points := [] })] },
         [.getCollections, .createCollection coll], .ok ()) := by
  simp only [ensure_qdrant_collection, hgc, hc, hcr]
  rfl

/-- C3. Per-object failure isolation: whenever enumeration succeeds and the
bootstrap can succeed, the run completes with `.ok` and its reported total is
exactly the sum over the enumerated keys of the chunk counts of the
successfully processed objects (a download, decode or upsert failure makes the
object contribute 0 and the run continue); conversely a run can only fail
because enumeration failed or because the collection bootstrap failed. -/
theorem per_object_failure_isolation (env : Env) (bucket keyPfx coll dest_dir : String)
    (delete_local dry_run : Bool) (fs0 : FS) (q0 : QdrantState) :
    (∀ keys : List String,
      list_s3_objects env bucket keyPfx = .ok keys →
      (keys ≠ [] → env.getCollectionsOk = true ∧
        ((q0.collections.map Prod.fst).contains coll = true ∨ env.createOk = true)) →
      (ingest_from_s3 env bucket keyPfx coll (some dest_dir) delete_local dry_run
          fs0 q0).result
        = .ok ((keys.map (fun k => (objChunkCount env dest_dir dry_run k).getD 0)).sum))
    ∧ (∀ e, (ingest_from_s3 env bucket keyPfx coll (some dest_dir) delete_local dry_run
          fs0 q0).result = .error e →
        (∃ msg, env.listRaw bucket keyPfx = .error msg)
        ∨ env.getCollectionsOk = false
        ∨ ((q0.collections.map Prod.fst).contains coll = false ∧ env.createOk = false)) := by
  constructor
  · intro keys hl hb
    by_cases hk : keys = []
    · subst hk
      simp only [ingest_from_s3, hl]
      simp
    · obtain ⟨hgc, hcr⟩ := hb hk
      cases hc : (q0.collections.map Prod.fst).contains coll with
      | true =>
        have he := ensure_present env q0 coll 384 hgc hc
        have hfold := foldl_processOne_total env coll dest_dir delete_local dry_run
          bucket keys { total := 0, fs := fs0, q := q0, events := [] }
        simp only [ingest_from_s3, hl, if_neg hk, he, Option.getD_some, hfold]
        simp
      | false =>
        have hcr2 : env.createOk = true := by
          rcases hcr with h | h
          · rw [hc] at h; cases h
          · exact h
        have he := ensure_absent_create env q0 coll 384 hgc hc hcr2
        have hfold := foldl_processOne_total env coll dest_dir delete_local dry_run
          bucket keys
          { total := 0, fs := fs0,
            q := { collections := q0.collections ++ [(coll, { vector_size := 384, distance := .cosine, points := [] })] },
            events := [] }
        simp only [ingest_from_s3, hl, if_neg hk, he, Option.getD_some, hfold]
        simp
  · intro e herr
    cases hl : env.listRaw bucket keyPfx with
    | error msg => exact Or.inl ⟨msg, rfl⟩
    | ok raw =>
      have hl2 : list_s3_objects env bucket keyPfx
          = .ok (raw.filter (fun k => !(lastIsSlash k))) := by
        simp [list_s3_objects, hl]
      by_cases hk : raw.filter (fun k => !(lastIsSlash k)) = []
      · rw [ingest_from_s3, hl2] at herr
        simp [hk] at herr
      · cases hgc : env.getCollectionsOk with
        | false => exact Or.inr (Or.inl rfl)
        | true =>
          cases hc : (q0.collections.map Prod.fst).contains coll with
          | true =>
            have he := ensure_present env q0 coll 384 hgc hc
            rw [ingest_from_s3, hl2] at herr
            simp [hk, he] at herr
          | false =>
            cases hcr : env.createOk with
            | false => exact Or.inr (Or.inr ⟨rfl, rfl⟩)
            | true =>
              have he := ensure_absent_create env q0 coll 384 hgc hc hcr
              rw [ingest_from_s3, hl2] at herr
              simp [hk, he] at herr

/-- A concrete environment for the C3 witness: three listed objects of which
the middle one holds undecodable bytes, plus a directory marker. -/
def envC3 : Env :=
  { listRaw := fun _ _ => .ok ["rcas/", "rcas/a.log", "rcas/bad.bin", "rcas/c.txt"]
    fetch := fun k => if k = "rcas/bad.bin" then .ok .binary else .ok (.text "hello world")
    head := fun _ =>
      .ok { lastModified := some "2024-01-01T00:00:00", size := some 11, etag := some "e1" }
    getCollectionsOk := true
    createOk := true
    upsertOk := fun _ => true
    removeOk := fun _ => true
    tmpDir := "/tmp/s3_ingest_c3" }

/-- Closed witness for C3: the run reports the sum over the three objects, the
middle (undecodable) object contributing zero, and that total is 2. -/
theorem per_object_failure_isolation_witness :
    (ingest_from_s3 envC3 "bucket" "rcas/" "incidents" (some "/tmp/stage") true false []
        { collections := [] }).result
      = .ok ((["rcas/a.log", "rcas/bad.bin", "rcas/c.txt"].map
          (fun k => (objChunkCount envC3 "/tmp/stage" false k).getD 0)).sum)
    ∧ (["rcas/a.log", "rcas/bad.bin", "rcas/c.txt"].map
          (fun k => (objChunkCount envC3 "/tmp/stage" false k).getD 0))
      = [1, 0, 1] := by
  refine ⟨(per_object_failure_isolation envC3 "bucket" "rcas/" "incidents" "/tmp/stage"
    true false [] { collections := [] }).1
    ["rcas/a.log", "rcas/bad.bin", "rcas/c.txt"] rfl (fun _ => ⟨rfl, Or.inr rfl⟩), ?_⟩
  decide

/-! ## Staged-file cleanup (C6) -/

/-- A concrete environment for the C6 counterexample: the object downloads
but its metadata call fails. -/
def envC6 : Env :=
  { listRaw := fun _ _ => .ok ["dir/leak.log"]
    fetch := fun _ => .ok (.text "hello")
    head := fun _ => .error "403 forbidden"
    getCollectionsOk := true
    createOk := true
    upsertOk := fun _ => true
    removeOk := fun _ => true
    tmpDir := "/tmp/s3_ingest_c6" }

/-- Counterexample to C6 as stated: with cleanup enabled, a staging failure
after the file was written (here `head_object` failing right after
`download_file` succeeded) exits the iteration through the pre-`try` `continue`
at line 200, so the staged file is NOT deleted — it is still on disk when the
run ends. -/
theorem cleanup_download_failure_counterexample :
    (ingest_from_s3 envC6 "bucket" "dir/" "incidents" (some "/tmp/stage") true false []
        { collections := [] }).result = .ok 0
    ∧ ¬ (fsRead (ingest_from_s3 envC6 "bucket" "dir/" "incidents" (some "/tmp/stage") true
          false [] { collections := [] }).fs
        (osPathJoin "/tmp/stage" (basename "dir/leak.log")) = none) := by
  exact ⟨rfl, by decide⟩

/-- C6 (amended). Once an object has been staged (download and metadata calls
both succeeded), the staged file is deleted on every exit of that iteration —
success, decode failure, or upsert failure alike — when cleanup is enabled and
the deletion succeeds; and a failing deletion is swallowed: it only leaves the
file behind, the iteration's chunk total and index state are unchanged
relative to a succeeding deletion, and no error is raised (the per-object step
is total).  On the staging-failure exit path no cleanup is attempted. -/
theorem cleanup_amended (env : Env) (coll dest_dir : String) (dry_run : Bool)
    (st : LoopState) (bucket key : String) (data : FileData) (hm : HeadMeta)
    (hf : env.fetch key = .ok data) (hh : env.head key = .ok hm) :
    (env.removeOk (osPathJoin dest_dir (basename key)) = true →
      fsRead (processOne env coll dest_dir true dry_run st bucket key).fs
        (osPathJoin dest_dir (basename key)) = none)
    ∧ (∀ rf : String → Bool,
        (processOne { env with removeOk := rf } coll dest_dir true dry_run st bucket
            key).total
          = (processOne env coll dest_dir true dry_run st bucket key).total
        ∧ (processOne { env with removeOk := rf } coll dest_dir true dry_run st bucket
            key).q
          = (processOne env coll dest_dir true dry_run st bucket key).q) := by
  have hdl : download_s3_object env bucket key dest_dir st.fs
      = (fsWrite st.fs (osPathJoin dest_dir (basename key)) data,
         [.downloadFile key, .headObject key],
         .ok (osPathJoin dest_dir (basename key), hm)) := by
    simp [download_s3_object, hf, hh]
  constructor
  · intro hrm
    simp only [processOne, hdl, hrm]
    simp [fsRead_fsRemove_self]
  · intro rf
    have hdl2 : download_s3_object { env with removeOk := rf } bucket key dest_dir st.fs
        = (fsWrite st.fs (osPathJoin dest_dir (basename key)) data,
           [.downloadFile key, .headObject key],
           .ok (osPathJoin dest_dir (basename key), hm)) := by
      simp [download_s3_object, hf, hh]
    constructor
    · simp only [processOne, hdl, hdl2]
      cases load_and_split (fsWrite st.fs (osPathJoin dest_dir (basename key)) data)
          (osPathJoin dest_dir (basename key)) 800 100 <;> rfl
    · simp only [processOne, hdl, hdl2]
      cases load_and_split (fsWrite st.fs (osPathJoin dest_dir (basename key)) data)
          (osPathJoin dest_dir (basename key)) 800 100 <;> rfl

/-- Closed witness for the amended C6 on a concrete successful staging. -/
theorem cleanup_amended_witness :
    (envW.removeOk (osPathJoin "/tmp/stage" (basename "rcas/a.log")) = true →
      fsRead (processOne envW "incidents" "/tmp/stage" true false
          { total := 0, fs := [], q := qW, events := [] } "bucket" "rcas/a.log").fs
        (osPathJoin "/tmp/stage" (basename "rcas/a.log")) = none)
    ∧ (∀ rf : String → Bool,
        (processOne { envW with removeOk := rf } "incidents" "/tmp/stage" true false
            { total := 0, fs := [], q := qW, events := [] } "bucket" "rcas/a.log").total
          = (processOne envW "incidents" "/tmp/stage" true false
            { total := 0, fs := [], q := qW, events := [] } "bucket" "rcas/a.log").total
        ∧ (processOne { envW with removeOk := rf } "incidents" "/tmp/stage" true false
            { total := 0, fs := [], q := qW, events := [] } "bucket" "rcas/a.log").q
          = (processOne envW "incidents" "/tmp/stage" true false
            { total := 0, fs := [], q := qW, events := [] } "bucket" "rcas/a.log").q) :=
  cleanup_amended envW "incidents" "/tmp/stage" false
    { total := 0, fs := [], q := qW, events := [] } "bucket" "rcas/a.log"
    (.text "hello")
    { lastModified := some "2024-01-01T00:00:00", size := some 5, etag := some "etag-1" }
    rfl rfl

/-! ## Run ordering (C7) -/

/-- Events emitted by the per-object pipeline stages (never by bootstrap or
enumeration). -/
def isPipelineEvent : Event → Bool
  | .downloadFile _ => true
  | .headObject _ => true
  | .addTexts _ => true
  | .removeFile _ => true
  | _ => false

/-- A concrete environment for the C7 counterexample: a singleton listing and
an absent collection. -/
def envC7 : Env :=
  { listRaw := fun _ _ => .ok ["rcas/a.log"]
    fetch := fun _ => .ok (.text "hello")
    head := fun _ => .ok { lastModified := none, size := some 5, etag := none }
    getCollectionsOk := true
    createOk := true
    upsertOk := fun _ => true
    removeOk := fun _ => true
    tmpDir := "/tmp/s3_ingest_c7" }

/-- Counterexample to C7 as stated: in this run both the enumeration call and
the bootstrap's collection listing occur, and the bootstrap does NOT precede
the enumeration — `ingest_from_s3` enumerates first (line 179) and only then
ensures the collection (line 187). -/
theorem bootstrap_order_counterexample :
    Event.getCollections ∈ (ingest_from_s3 envC7 "bucket" "" "incidents"
        (some "/tmp/stage") true true [] { collections := [] }).events
    ∧ Event.listObjects ∈ (ingest_from_s3 envC7 "bucket" "" "incidents"
        (some "/tmp/stage") true true [] { collections := [] }).events
    ∧ ¬ ((ingest_from_s3 envC7 "bucket" "" "incidents" (some "/tmp/stage") true true []
          { collections := [] }).events.indexOf Event.getCollections
        < (ingest_from_s3 envC7 "bucket" "" "incidents" (some "/tmp/stage") true true []
          { collections := [] }).events.indexOf Event.listObjects) := by
  decide

theorem processOne_events (env : Env) (coll dest_dir : String)
    (delete_local dry_run : Bool) (st : LoopState) (bucket key : String) :
    ∃ new : List Event,
      (processOne env coll dest_dir delete_local dry_run st bucket key).events
        = st.events ++ new
      ∧ ∀ e ∈ new, isPipelineEvent e = true := by
  cases hf : env.fetch key with
  | error e =>
    have hdl : download_s3_object env bucket key dest_dir st.fs
        = (st.fs, [.downloadFile key], .error e) := by
      simp [download_s3_object, hf]
    refine ⟨[.downloadFile key], ?_, ?_⟩
    · simp [processOne, hdl]
    · intro ev hev
      rcases List.mem_singleton.1 hev with rfl
      rfl
  | ok data =>
    cases hh : env.head key with
    | error e =>
      have hdl : download_s3_object env bucket key dest_dir st.fs
          = (fsWrite st.fs (osPathJoin dest_dir (basename key)) data,
             [.downloadFile key, .headObject key], .error e) := by
        simp [download_s3_object, hf, hh]
      refine ⟨[.downloadFile key, .headObject key], ?_, ?_⟩
      · simp [processOne, hdl]
      · intro ev hev
        rcases List.mem_cons.1 hev with rfl | hev
        · rfl
        · rcases List.mem_singleton.1 hev with rfl
          rfl
    | ok hm =>
      have hdl : download_s3_object env bucket key dest_dir st.fs
          = (fsWrite st.fs (osPathJoin dest_dir (basename key)) data,
             [.downloadFile key, .headObject key],
             .ok (osPathJoin dest_dir (basename key), hm)) := by
        simp [download_s3_object, hf, hh]
      simp only [processOne, hdl]
      cases hls : load_and_split (fsWrite st.fs (osPathJoin dest_dir (basename key)) data)
          (osPathJoin dest_dir (basename key)) 800 100 with
      | error e =>
        refine ⟨[.downloadFile key, .headObject key]
            ++ (if delete_local then [Event.removeFile (osPathJoin dest_dir (basename key))]
                else []), ?_, ?_⟩
        · cases delete_local <;> simp
        · intro ev hev
          rcases List.mem_append.1 hev with hev | hev
          · rcases List.mem_cons.1 hev with rfl | hev
            · rfl
            · rcases List.mem_singleton.1 hev with rfl
              rfl
          · cases delete_local with
            | true => rcases List.mem_singleton.1 hev with rfl; rfl
            | false => cases hev
      | ok docs_chunks =>
        refine ⟨[.downloadFile key, .headObject key]
            ++ (upsert_chunks_to_qdrant env st.q coll docs_chunks key
                { filename := some (basename (osPathJoin dest_dir (basename key))),
                  s3_last_modified := hm.lastModified, s3_size := hm.size } dry_run).2.1
            ++ (if delete_local then [Event.removeFile (osPathJoin dest_dir (basename key))]
                else []), ?_, ?_⟩
        · cases hup : upsert_chunks_to_qdrant env st.q coll docs_chunks key
              { filename := some (basename (osPathJoin dest_dir (basename key))),
                s3_last_modified := hm.lastModified, s3_size := hm.size } dry_run with
          | mk q1 rest =>
            cases rest with
            | mk ev2 res =>
              cases res <;> cases delete_local <;> simp_all
        · intro ev hev
          rcases List.mem_append.1 hev with hev | hev
          · rcases List.mem_append.1 hev with hev | hev
            · rcases List.mem_cons.1 hev with rfl | hev
              · rfl
              · rcases List.mem_singleton.1 hev with rfl
                rfl
            · have : (upsert_chunks_to_qdrant env st.q coll docs_chunks key
                  { filename := some (basename (osPathJoin dest_dir (basename key))),
                    s3_last_modified := hm.lastModified, s3_size := hm.size }
                  dry_run).2.1 = [] ∨
                  (upsert_chunks_to_qdrant env st.q coll docs_chunks key
                  { filename := some (basename (osPathJoin dest_dir (basename key))),
                    s3_last_modified := hm.lastModified, s3_size := hm.size }
                  dry_run).2.1 = [Event.addTexts key] := by
                unfold upsert_chunks_to_qdrant
                cases dry_run with
                | true => exact Or.inl rfl
                | false =>
                  cases env.upsertOk key <;> simp
              rcases this with h | h
              · rw [h] at hev; cases hev
              · rw [h] at hev
                rcases List.mem_singleton.1 hev with rfl
                rfl
          · cases delete_local with
            | true => rcases List.mem_singleton.1 hev with rfl; rfl
            | false => cases hev

theorem foldl_processOne_events (env : Env) (coll dest_dir : String)
    (delete_local dry_run : Bool) (bucket : String) :
    ∀ (keys : List String) (st : LoopState),
      ∃ new : List Event,
        (keys.foldl (fun st k => processOne env coll dest_dir delete_local dry_run st
          bucket k) st).events = st.events ++ new
        ∧ ∀ e ∈ new, isPipelineEvent e = true := by
  intro keys
  induction keys with
  | nil => intro st; exact ⟨[], by simp, fun e he => absurd he (List.not_mem_nil e)⟩
  | cons k ks ih =>
    intro st
    obtain ⟨new1, h1, hp1⟩ := processOne_events env coll dest_dir delete_local dry_run
      st bucket k
    obtain ⟨new2, h2, hp2⟩ := ih (processOne env coll dest_dir delete_local dry_run st
      bucket k)
    refine ⟨new1 ++ new2, ?_, ?_⟩
    · rw [List.foldl_cons, h2, h1, List.append_assoc]
    · intro e he
      rcases List.mem_append.1 he with he | he
      · exact hp1 e he
      · exact hp2 e he

/-- C7 (amended). On every run whose enumeration succeeds with a nonempty
(filtered) listing and whose bootstrap succeeds, the trace is exactly one
enumeration call, then the bootstrap (its collection listing, plus exactly one
collection-creation mutation when and only when the collection is absent), and
only then the per-object stage events, which contain no further enumeration,
collection listing, or creation events. -/
theorem bootstrap_order_amended (env : Env) (bucket keyPfx coll : String)
    (dir : Option String) (delete_local dry_run : Bool) (fs0 : FS) (q0 : QdrantState)
    (keys : List String)
    (hl : list_s3_objects env bucket keyPfx = .ok keys)
    (hk : keys ≠ [])
    (hgc : env.getCollectionsOk = true)
    (hcr : (q0.collections.map Prod.fst).contains coll = true ∨ env.createOk = true) :
    ∃ objEvents : List Event,
      (ingest_from_s3 env bucket keyPfx coll dir delete_local dry_run fs0 q0).events
        = [Event.listObjects, Event.getCollections]
          ++ (if (q0.collections.map Prod.fst).contains coll then []
              else [Event.createCollection coll])
          ++ objEvents
      ∧ (∀ name, Event.createCollection name ∉ objEvents)
      ∧ Event.getCollections ∉ objEvents
      ∧ Event.listObjects ∉ objEvents := by
  cases hc : (q0.collections.map Prod.fst).contains coll with
  | true =>
    have he := ensure_present env q0 coll 384 hgc hc
    obtain ⟨new, hnew, hp⟩ := foldl_processOne_events env coll (dir.getD env.tmpDir)
      delete_local dry_run bucket keys { total := 0, fs := fs0, q := q0, events := [] }
    refine ⟨new, ?_, ?_, ?_, ?_⟩
    · simp only [ingest_from_s3, hl, if_neg hk, he, hnew]
      simp
    · intro name hmem
      have := hp _ hmem
      simp [isPipelineEvent] at this
    · intro hmem
      have := hp _ hmem
      simp [isPipelineEvent] at this
    · intro hmem
      have := hp _ hmem
      simp [isPipelineEvent] at this
  | false =>
    have hcr2 : env.createOk = true := by
      rcases hcr with h | h
      · rw [hc] at h; cases h
      · exact h
    have he := ensure_absent_create env q0 coll 384 hgc hc hcr2
    obtain ⟨new, hnew, hp⟩ := foldl_processOne_events env coll (dir.getD env.tmpDir)
      delete_local dry_run bucket keys
      { total := 0, fs := fs0,
        q := { collections := q0.collections ++ [(coll, { vector_size := 384, distance := .cosine, points := [] })] },
        events := [] }
    refine ⟨new, ?_, ?_, ?_, ?_⟩
    · simp only [ingest_from_s3, hl, if_neg hk, he, hnew]
      simp
    · intro name hmem
      have := hp _ hmem
      simp [isPipelineEvent] at this
    · intro hmem
      have := hp _ hmem
      simp [isPipelineEvent] at this
    · intro hmem
      have := hp _ hmem
      simp [isPipelineEvent] at this

/-- Closed witness for the amended C7 on a concrete absent-collection run. -/
theorem bootstrap_order_amended_witness :
    ∃ objEvents : List Event,
      (ingest_from_s3 envW "bucket" "rcas/" "incidents" (some "/tmp/stage") true false []
          { collections := [] }).events
        = [Event.listObjects, Event.getCollections]
          ++ (if (QdrantState.collections { collections := [] }
                |>.map Prod.fst).contains "incidents" then []
              else [Event.createCollection "incidents"])
          ++ objEvents
      ∧ (∀ name, Event.createCollection name ∉ objEvents)
      ∧ Event.getCollections ∉ objEvents
      ∧ Event.listObjects ∉ objEvents :=
  bootstrap_order_amended envW "bucket" "rcas/" "incidents" (some "/tmp/stage") true false
    [] { collections := [] } ["rcas/a.log"] rfl (by decide) rfl (Or.inr rfl)
